import Mathlib

set_option maxRecDepth 8000

/-!
Shallow embedding of the go-telnet connection engine (src/telnet.go, package
gote).  Bytes are modelled as `Nat`, Go byte slices and `bytes.Buffer`
contents as `List Nat`, and the connection state as a record of the inbound
buffer, the outbound buffer and the byte sequence written to the underlying
transport.  Fallible or panicking operations return `Option`.
-/

namespace GoTelnet

/-- Command byte IAC (src/telnet.go line 15). -/
def IAC : Nat := 255

/-- Command byte DONT (src/telnet.go line 16). -/
def DONT : Nat := 254

/-- Command byte DO (src/telnet.go line 17). -/
def DO : Nat := 253

/-- Command byte WONT (src/telnet.go line 18). -/
def WONT : Nat := 252

/-- Command byte WILL (src/telnet.go line 19). -/
def WILL : Nat := 251

/-- Option byte BIN, Binary Transmission (src/telnet.go line 34). -/
def BIN : Nat := 0

/-- Option byte ECHO (src/telnet.go line 35). -/
def ECHO : Nat := 1

/-- Option byte SGA, Suppress Go Ahead (src/telnet.go line 37). -/
def SGA : Nat := 3

/-- Go error values that the embedding distinguishes: `io.EOF`, and a sample
transport-level error (such as a connection reset) standing for any non-EOF
error the underlying `net.Conn` can produce. -/
inductive GoErr where
  | eof
  | connReset
deriving DecidableEq, Repr

/-- State of an initialized telnet connection (struct `conn`, src/telnet.go
lines 78-83, after `process` has allocated its buffers): `bIn` is the inbound
buffer fed from the transport, `bOut` the outbound buffer drained by `Read`,
and `sent` the bytes written to the underlying transport `c.c` so far.  The
struct has no further data fields: in particular it has no field recording a
transport error. -/
structure ConnState where
  bIn : List Nat
  bOut : List Nat
  sent : List Nat
deriving DecidableEq, Repr

/-- conn.will (src/telnet.go lines 194-208): on `IAC WILL opt`, if fewer than
3 bytes are buffered, return and wait; otherwise write `IAC DO SGA` to the
transport when opt = SGA and `IAC DONT opt` otherwise, then consume 3 bytes
from the inbound buffer. -/
def will (buf : List Nat) (s : ConnState) : ConnState :=
  if buf.length < 3 then s
  else
    let opt := buf.getD 2 0
    if opt = SGA then
      { s with sent := s.sent ++ [IAC, DO, SGA], bIn := s.bIn.drop 3 }
    else
      { s with sent := s.sent ++ [IAC, DONT, opt], bIn := s.bIn.drop 3 }

/-- conn.dont (src/telnet.go lines 212-221): on `IAC DONT opt`, if fewer than
3 bytes are buffered, return and wait; otherwise write `IAC WONT opt` to the
transport, then consume 3 bytes from the inbound buffer. -/
def dont (buf : List Nat) (s : ConnState) : ConnState :=
  if buf.length < 3 then s
  else
    { s with sent := s.sent ++ [IAC, WONT, buf.getD 2 0], bIn := s.bIn.drop 3 }

/-- conn.do (src/telnet.go lines 225-240; named `doCmd` here because `do` is
reserved in Lean): on `IAC DO opt`, if fewer than 3 bytes are buffered,
return and wait; otherwise write `IAC WILL BIN` to the transport when
opt = BIN and `IAC WONT opt` otherwise, then consume 3 bytes from the
inbound buffer. -/
def doCmd (buf : List Nat) (s : ConnState) : ConnState :=
  if buf.length < 3 then s
  else
    let opt := buf.getD 2 0
    if opt = BIN then
      { s with sent := s.sent ++ [IAC, WILL, BIN], bIn := s.bIn.drop 3 }
    else
      { s with sent := s.sent ++ [IAC, WONT, opt], bIn := s.bIn.drop 3 }

/-- conn.wont (src/telnet.go lines 244-251): on `IAC WONT opt`, if fewer than
3 bytes are buffered, return and wait; otherwise consume 3 bytes from the
inbound buffer without writing anything. -/
def wont (buf : List Nat) (s : ConnState) : ConnState :=
  if buf.length < 3 then s
  else { s with bIn := s.bIn.drop 3 }

/-- conn.parseCommand (src/telnet.go lines 167-190): dispatch on the second
byte of the window; DONT/DO/WONT/WILL go to their handlers, everything else
falls through the switch without any effect. -/
def parseCommand (buff : List Nat) (s : ConnState) : ConnState :=
  let cmd := buff.getD 1 0
  if cmd = DONT then dont buff s
  else if cmd = DO then doCmd buff s
  else if cmd = WONT then wont buff s
  else if cmd = WILL then will buff s
  else s

/-- conn.processIAC (src/telnet.go lines 149-163): if at most one byte is
buffered, do nothing; if the first two bytes are both 255, write a single 255
to the outbound buffer and advance the inbound buffer twice by one byte
(`bIn.Next(1)` twice); otherwise hand the window to parseCommand. -/
def processIAC (s : ConnState) : ConnState :=
  if s.bIn.length ≤ 1 then s
  else if s.bIn.getD 0 0 = 255 ∧ s.bIn.getD 1 0 = 255 then
    { s with bOut := s.bOut ++ s.bIn.take 1, bIn := (s.bIn.drop 1).drop 1 }
  else parseCommand s.bIn s

/-- One data-processing pass of the pump loop body in conn.process
(src/telnet.go lines 118-130): when the inbound buffer is non-empty, look for
the first 255 (`bytes.IndexByte`, modelled by `List.findIdx`, which returns
the length when no byte matches, standing for Go's -1); if absent, move the
whole inbound buffer to the outbound buffer; if present at offset i, move the
first i bytes to the outbound buffer and run processIAC. -/
def processStep (s : ConnState) : ConnState :=
  if s.bIn.length > 0 then
    if s.bIn.findIdx (fun x => x = IAC) = s.bIn.length then
      { s with bOut := s.bOut ++ s.bIn, bIn := [] }
    else
      processIAC { s with
        bOut := s.bOut ++ s.bIn.take (s.bIn.findIdx (fun x => x = IAC)),
        bIn := s.bIn.drop (s.bIn.findIdx (fun x => x = IAC)) }
  else s

/-- Go standard library `bytes.Buffer.Read` semantics (the callee of conn.Read,
src/telnet.go line 105), from its documented contract: if the buffer is empty,
return no bytes together with `io.EOF` unless the destination has length 0, in
which case return no bytes and no error; otherwise copy up to `n` bytes out of
the front of the buffer and return them with no error.  It never blocks.
Returns (bytes read, remaining buffer, error). -/
def bufferRead (buf : List Nat) (n : Nat) : List Nat × List Nat × Option GoErr :=
  if buf = [] then
    if n = 0 then ([], buf, none) else ([], buf, some GoErr.eof)
  else (buf.take n, buf.drop n, none)

/-- conn.Read (src/telnet.go lines 104-106): a single delegation to
`c.bOut.Read(b)` where `n` is the destination length. -/
def connRead (s : ConnState) (n : Nat) : List Nat × ConnState × Option GoErr :=
  let r := bufferRead s.bOut n
  (r.1, { s with bOut := r.2.1 }, r.2.2)

/-- Transport-reader goroutine `go io.Copy(c.bIn, c.c)` (src/telnet.go line
116): whatever bytes the transport delivers are appended to the inbound
buffer; the error with which `io.Copy` eventually returns is discarded by the
`go` statement, and the `conn` struct has no field in which it could be
recorded, so the connection state does not depend on it. -/
def transportPump (s : ConnState) (delivered : List Nat) (terr : GoErr) : ConnState :=
  { s with bIn := s.bIn ++ delivered }

/-- Spec-side definition (for comparison with the code): the "cached transport
error" the spec attributes to a connection.  The `conn` struct (src/telnet.go
lines 78-83) has exactly the fields c, quit, bIn, bOut, so no transport error
is ever stored and the cache the spec describes has no carrier: on the code it
is the constantly-absent value. -/
def specCachedError (s : ConnState) : Option GoErr := none

/-- Spec-side formalization of the C2 claim: every Read with a non-empty
destination either returns payload bytes (progress) or returns the connection's
cached transport error, which then exists. -/
def c2ClaimProp : Prop :=
  ∀ (s : ConnState) (n : Nat), 0 < n →
    (connRead s n).1 ≠ [] ∨
      ((specCachedError s).isSome ∧ (connRead s n).2.2 = specCachedError s)

/-- Spec-side formalization of the C3 claim: once the transport has errored
with e, every subsequent Read that finds no buffered payload returns that
recorded error e. -/
def c3ClaimProp : Prop :=
  ∀ (s : ConnState) (d : List Nat) (e : GoErr) (n : Nat), 0 < n →
    (transportPump s d e).bOut = [] →
    (connRead (transportPump s d e) n).2.2 = some e

/-- One execution of the loop body of conn.Write (src/telnet.go lines
259-263), run when b[i] = 255: `b = append(b, 0)`, then
`copy(b[i+1:], b[i:])` (Go copy transfers min(len dst, len src) bytes with
memmove semantics), then `b[i] = byte(255)`. -/
def escBody (b : List Nat) (i : Nat) : List Nat :=
  ((b ++ [0]).take (i + 1) ++
      ((b ++ [0]).drop i).take ((b ++ [0]).length - (i + 1))).set i 255

/-- Fuel-indexed evaluation of the escaping loop of conn.Write (src/telnet.go
lines 257-264): `for i := 0; i < len(b); i++ { if b[i] == IAC { ... } }`.
Returns the final slice if the loop exits within `fuel` iterations, and `none`
if the fuel runs out first. -/
def writeLoop : Nat → List Nat → Nat → Option (List Nat)
  | 0, _, _ => none
  | fuel + 1, b, i =>
    if h : i < b.length then
      if b.get ⟨i, h⟩ = 255 then writeLoop fuel (escBody b i) (i + 1)
      else writeLoop fuel b (i + 1)
    else some b

/-- A freshly created `conn` object as dial leaves it (struct literal `var t
conn` plus the assignments in conn.dial, src/telnet.go lines 89 and 94-100):
the buffer pointer fields are nilable, modelled by `Option`; `none` is a nil
`*bytes.Buffer`. -/
structure RawConn where
  bIn : Option (List Nat)
  bOut : Option (List Nat)
deriving DecidableEq, Repr

/-- Outcome of conn.dial (src/telnet.go lines 94-100): the returned Connection
value (`none` would model returning a nil connection), whether the pump
goroutine `go c.process()` was started, and the error from `net.Dial`. -/
structure DialOutcome where
  ret : Option RawConn
  pumpStarted : Bool
  err : Option GoErr
deriving DecidableEq, Repr

/-- conn.dial (src/telnet.go lines 94-100): `c.c, err = net.Dial(...)`,
`c.quit = make(chan bool, 1)`, `go c.process()`, `return c, err`.  The buffer
fields are not assigned, the pump is started and the object is returned
unconditionally, whatever `net.Dial` returned. -/
def dialModel (netErr : Option GoErr) : DialOutcome :=
  { ret := some { bIn := none, bOut := none }, pumpStarted := true, err := netErr }

/-- The first two statements of conn.process (src/telnet.go lines 112-114):
allocate the inbound and outbound buffers. -/
def processInit (c : RawConn) : RawConn :=
  { c with bIn := some [], bOut := some [] }

/-- conn.Read on a possibly-uninitialized connection (src/telnet.go lines
104-106): calling `Read` on a nil `*bytes.Buffer` dereferences nil and
panics, modelled as `none`; otherwise it behaves as `bufferRead`. -/
def rawRead (c : RawConn) (n : Nat) : Option (List Nat × RawConn × Option GoErr) :=
  match c.bOut with
  | none => none
  | some buf =>
      let r := bufferRead buf n
      some (r.1, { c with bOut := some r.2.1 }, r.2.2)

/-- Response table of the negotiation policy as the spec states it (spec
section 4.3), used to phrase the theorems about parseCommand: the transport
bytes elicited by a full command `IAC cmd opt`. -/
def negResponse (cmd opt : Nat) : List Nat :=
  if cmd = WILL then (if opt = SGA then [IAC, DO, SGA] else [IAC, DONT, opt])
  else if cmd = DO then (if opt = BIN then [IAC, WILL, BIN] else [IAC, WONT, opt])
  else if cmd = DONT then [IAC, WONT, opt]
  else []





lemma set_append_len (l₁ l₂ : List Nat) (a : Nat) :
    (l₁ ++ l₂).set l₁.length a = l₁ ++ l₂.set 0 a := by
  induction l₁ with
  | nil => rfl
  | cons x t ih => simp [List.set, ih]

lemma set_append_len' (l₁ l₂ : List Nat) (a : Nat) (n : Nat) (hn : n = l₁.length) :
    (l₁ ++ l₂).set n a = l₁ ++ l₂.set 0 a := by
  subst hn
  exact set_append_len l₁ l₂ a

lemma escBody_eq (b : List Nat) (i : Nat) (h : i < b.length) :
    escBody b i = b.take i ++ 255 :: b.drop i := by
  unfold escBody
  have h1 : (b ++ [0]).take (i + 1) = b.take (i + 1) :=
    List.take_append_of_le_length (by omega)
  have h3 : (b ++ [0]).length - (i + 1) = b.length - i := by
    simp
  have h2 : (b ++ [0]).drop i = b.drop i ++ [0] :=
    List.drop_append_of_le_length (by omega)
  have h4 : (b.drop i ++ [0]).take (b.length - i) = b.drop i := by
    have hlen : (b.drop i).length = b.length - i := List.length_drop i b
    rw [← hlen, List.take_left]
  have h5 : b.take (i + 1) = b.take i ++ [b.get ⟨i, h⟩] := by
    rw [List.take_succ]
    simp [List.getElem?_eq_getElem h]
  have h6 : i = (b.take i).length := by
    simp [List.length_take]
    omega
  rw [h1, h2, h3, h4, h5, List.append_assoc,
    set_append_len' (b.take i) _ 255 i h6]
  simp

lemma escBody_drop (b : List Nat) (i : Nat) (h : i < b.length) :
    (escBody b i).drop (i + 1) = b.drop i := by
  rw [escBody_eq b i h]
  have h6 : (b.take i).length = i := by
    simp [List.length_take]
    omega
  have : i + 1 = (b.take i).length + 1 := by omega
  rw [this, List.drop_append 1]
  rfl

lemma writeLoop_none_of_mem (fuel : Nat) :
    ∀ (b : List Nat) (i : Nat), 255 ∈ b.drop i → writeLoop fuel b i = none := by
  induction fuel with
  | zero => intro b i _; rfl
  | succ f ih =>
      intro b i hmem
      have hi : i < b.length := by
        by_contra hc
        rw [List.drop_eq_nil_of_le (by omega)] at hmem
        exact absurd hmem (List.not_mem_nil 255)
      have hdrop : b.drop i = b.get ⟨i, hi⟩ :: b.drop (i + 1) :=
        List.drop_eq_getElem_cons hi
      unfold writeLoop
      rw [dif_pos hi]
      by_cases hb : b.get ⟨i, hi⟩ = 255
      · rw [if_pos hb]
        apply ih
        rw [escBody_drop b i hi]
        exact hmem
      · rw [if_neg hb]
        apply ih
        rw [hdrop] at hmem
        rcases List.mem_cons.mp hmem with h | h
        · exact absurd h.symm hb
        · exact h

lemma writeLoop_some_of_not_mem :
    ∀ (fuel : Nat) (b : List Nat) (i : Nat), 255 ∉ b.drop i → b.length - i < fuel →
      writeLoop fuel b i = some b := by
  intro fuel
  induction fuel with
  | zero => intro b i _ hf; omega
  | succ f ih =>
      intro b i hmem hfuel
      unfold writeLoop
      by_cases hi : i < b.length
      · rw [dif_pos hi]
        have hdrop : b.drop i = b.get ⟨i, hi⟩ :: b.drop (i + 1) :=
          List.drop_eq_getElem_cons hi
        have hget : ¬ (b.get ⟨i, hi⟩ = 255) := by
          intro hc
          apply hmem
          rw [hdrop, hc]
          exact List.mem_cons_self _ _
        rw [if_neg hget]
        apply ih
        · intro hc
          apply hmem
          rw [hdrop]
          exact List.mem_cons_of_mem _ hc
        · omega
      · rw [dif_neg hi]

lemma processIAC_full_cmd (cmd opt : Nat) (rest o w : List Nat)
    (h : cmd = WILL ∨ cmd = DO ∨ cmd = DONT ∨ cmd = WONT) :
    processIAC ⟨255 :: cmd :: opt :: rest, o, w⟩ = ⟨rest, o, w ++ negResponse cmd opt⟩ := by
  rcases h with h | h | h | h <;> subst h
  · by_cases hopt : opt = 3 <;>
      simp [processIAC, parseCommand, will, negResponse, IAC, WILL, DO, DONT, WONT, SGA, hopt]
  · by_cases hopt : opt = 0 <;>
      simp [processIAC, parseCommand, doCmd, negResponse, IAC, WILL, DO, DONT, WONT, BIN, hopt]
  · simp [processIAC, parseCommand, dont, negResponse, IAC, WILL, DO, DONT, WONT]
  · simp [processIAC, parseCommand, wont, negResponse, IAC, WILL, DO, DONT, WONT]

lemma findIdx_append_cons_iac (p : List Nat) (l : List Nat)
    (hp : ∀ x ∈ p, x ≠ 255) :
    (p ++ 255 :: l).findIdx (fun x => x = IAC) = p.length := by
  simp only [IAC]
  induction p with
  | nil => simp [List.findIdx_cons]
  | cons a t ih =>
      have ha : a ≠ 255 := hp a (List.mem_cons_self a t)
      have iht : (t ++ 255 :: l).findIdx (fun x => decide (x = 255)) = t.length :=
        ih (fun x hx => hp x (List.mem_cons_of_mem a hx))
      simp [List.findIdx_cons, ha, iht]





/-- Claim C1, code evaluated at the failing input: the escaping loop of
conn.Write never terminates on the payload [255], whatever iteration budget
it is given, so Write never produces the doubled-sentinel transport bytes the
spec describes. -/
theorem write_escape_diverges_on_sentinel_payload (fuel : Nat) :
    writeLoop fuel [255] 0 = none :=
  writeLoop_none_of_mem fuel [255] 0 (by decide)

/-- Claim C8: the in-place escaping loop of conn.Write does not terminate on
any payload containing the byte 255 (no fuel bound suffices), and it returns
the payload unchanged, within length + 1 iterations, exactly when the payload
contains no 255. -/
theorem write_loop_diverges_iff_sentinel (b : List Nat) :
    (255 ∈ b → ∀ fuel, writeLoop fuel b 0 = none) ∧
      (255 ∉ b → writeLoop (b.length + 1) b 0 = some b) := by
  constructor
  · intro hmem fuel
    exact writeLoop_none_of_mem fuel b 0 (by simpa using hmem)
  · intro hmem
    exact writeLoop_some_of_not_mem (b.length + 1) b 0 (by simpa using hmem) (by omega)

/-- Witness for C8 at the concrete payloads [255] and [1, 2]. -/
theorem write_loop_diverges_iff_sentinel_witness :
    (255 ∈ [255] ∧ writeLoop 5 [255] 0 = none) ∧
      (255 ∉ [1, 2] ∧ writeLoop 3 [1, 2] 0 = some [1, 2]) :=
  ⟨⟨by decide, (write_loop_diverges_iff_sentinel [255]).1 (by decide) 5⟩,
    ⟨by decide, (write_loop_diverges_iff_sentinel [1, 2]).2 (by decide)⟩⟩

/-- Claim C4: a complete 3-byte command IAC cmd opt with cmd among
WILL/DO/DONT/WONT elicits exactly the transport write given by the
negotiation table (WILL: DO-SGA when opt = SGA else DONT-opt; DO: WILL-BIN
when opt = BIN else WONT-opt; DONT: always WONT-opt; WONT: nothing), leaves
the outbound payload buffer untouched, and consumes exactly 3 bytes from the
inbound buffer. -/
theorem negotiation_response_table (cmd opt : Nat) (rest o w : List Nat)
    (h : cmd = WILL ∨ cmd = DO ∨ cmd = DONT ∨ cmd = WONT) :
    processIAC ⟨IAC :: cmd :: opt :: rest, o, w⟩ = ⟨rest, o, w ++ negResponse cmd opt⟩ :=
  processIAC_full_cmd cmd opt rest o w h

/-- Witness for C4 at the command IAC DO ECHO, which elicits IAC WONT ECHO. -/
theorem negotiation_response_table_witness :
    (DO = WILL ∨ DO = DO ∨ DO = DONT ∨ DO = WONT) ∧
      processIAC ⟨IAC :: DO :: ECHO :: [], [], []⟩ = ⟨[], [], [] ++ negResponse DO ECHO⟩ :=
  ⟨by decide, negotiation_response_table DO ECHO [] [] [] (by decide)⟩

/-- Claim C5: an inbound buffer holding a run of non-sentinel payload bytes
followed by a complete 3-byte command is processed in one pump pass: the
payload run reaches the outbound buffer in order, the command elicits its
table response on the transport, and no command byte reaches the outbound
buffer. -/
theorem payload_forwarded_before_command (p : List Nat) (cmd opt : Nat) (o w : List Nat)
    (hp : ∀ x ∈ p, x ≠ IAC)
    (hc : cmd = WILL ∨ cmd = DO ∨ cmd = DONT ∨ cmd = WONT) :
    processStep ⟨p ++ [IAC, cmd, opt], o, w⟩ = ⟨[], o ++ p, w ++ negResponse cmd opt⟩ := by
  have hp' : ∀ x ∈ p, x ≠ 255 := by simpa [IAC] using hp
  have hfind : (p ++ [IAC, cmd, opt]).findIdx (fun x => x = IAC) = p.length := by
    have := findIdx_append_cons_iac p [cmd, opt] hp'
    simpa [IAC] using this
  have hlen : (p ++ [IAC, cmd, opt]).length = p.length + 3 := by simp
  unfold processStep
  rw [if_pos (by simp)]
  rw [hfind, hlen]
  rw [if_neg (by omega)]
  rw [List.take_left, List.drop_left]
  exact processIAC_full_cmd cmd opt [] (o ++ p) w hc

/-- Witness for C5 at payload 1..6 followed by IAC DO ECHO. -/
theorem payload_forwarded_before_command_witness :
    ((∀ x ∈ [1, 2, 3, 4, 5, 6], x ≠ IAC) ∧
        (DO = WILL ∨ DO = DO ∨ DO = DONT ∨ DO = WONT)) ∧
      processStep ⟨[1, 2, 3, 4, 5, 6] ++ [IAC, DO, ECHO], [], []⟩ =
        ⟨[], [] ++ [1, 2, 3, 4, 5, 6], [] ++ negResponse DO ECHO⟩ :=
  ⟨⟨by decide, by decide⟩,
    payload_forwarded_before_command [1, 2, 3, 4, 5, 6] DO ECHO [] [] (by decide) (by decide)⟩

/-- Claim C6: an inbound buffer beginning with the two bytes 255 255 makes
processIAC emit exactly one 255 to the outbound buffer and consume exactly 2
inbound bytes, leaving the rest in place; concretely, after [255, 255, 23]
the byte 23 is left buffered and the next pump pass delivers it as ordinary
payload. -/
theorem escaped_sentinel_collapsed :
    (∀ (rest o w : List Nat),
        processIAC ⟨IAC :: IAC :: rest, o, w⟩ = ⟨rest, o ++ [IAC], w⟩) ∧
      processStep ⟨[IAC, IAC, 23], [], []⟩ = ⟨[23], [IAC], []⟩ ∧
      processStep ⟨[23], [IAC], []⟩ = ⟨[], [IAC, 23], []⟩ := by
  refine ⟨?_, by decide, by decide⟩
  intro rest o w
  simp [processIAC, IAC]

/-- Claim C7: on an inbound buffer holding only a lone 255, or 255 followed
by an option-bearing command byte with no option byte yet, a pump pass
changes nothing: no inbound or outbound mutation, no transport write, and
the lone sentinel is never forwarded as payload. -/
theorem partial_command_never_consumed (bin o w : List Nat) (cmd : Nat)
    (h : bin = [IAC] ∨
      (bin = [IAC, cmd] ∧ (cmd = DO ∨ cmd = DONT ∨ cmd = WILL ∨ cmd = WONT))) :
    processStep ⟨bin, o, w⟩ = ⟨bin, o, w⟩ := by
  rcases h with h | ⟨h, hc⟩
  · subst h
    simp [processStep, processIAC, IAC, List.findIdx_cons]
  · subst h
    rcases hc with hc | hc | hc | hc <;> subst hc <;>
      simp [processStep, processIAC, parseCommand, doCmd, dont, will, wont,
        IAC, DO, DONT, WILL, WONT, List.findIdx_cons]

/-- Witness for C7 at the lone sentinel buffer [255]. -/
theorem partial_command_never_consumed_witness :
    ([IAC] = [IAC] ∨
        ([IAC] = [IAC, DO] ∧ (DO = DO ∨ DO = DONT ∨ DO = WILL ∨ DO = WONT))) ∧
      processStep ⟨[IAC], [], []⟩ = ⟨[IAC], [], []⟩ :=
  ⟨Or.inl rfl, partial_command_never_consumed [IAC] [] [] DO (Or.inl rfl)⟩

/-- Claim C2 counterexample: the claim that Read always makes progress or
returns the connection's cached transport error fails at the empty
connection state with a 1-byte destination, where Read returns 0 bytes and
io.EOF while no cached error exists (the conn struct cannot even hold one). -/
theorem read_claim_counterexample : ¬ c2ClaimProp := by
  intro h
  rcases h ⟨[], [], []⟩ 1 (by decide) with h1 | h2
  · exact h1 rfl
  · simp [specCachedError] at h2

/-- Claim C2 amended: conn.Read never blocks; with a non-empty destination it
either returns at least one payload byte with no error, or returns no bytes
together with io.EOF when the outbound buffer is empty — and in particular it
never returns (0, nil). -/
theorem read_returns_progress_or_eof (s : ConnState) (n : Nat) (hn : 0 < n) :
    ((connRead s n).1 ≠ [] ∧ (connRead s n).2.2 = none) ∨
      ((connRead s n).1 = [] ∧ (connRead s n).2.2 = some GoErr.eof) := by
  rcases s with ⟨bin, bout, sw⟩
  cases bout with
  | nil =>
      right
      have hn0 : n ≠ 0 := by omega
      constructor <;> simp [connRead, bufferRead, hn0]
  | cons a t =>
      left
      constructor
      · cases n with
        | zero => omega
        | succ m => simp [connRead, bufferRead]
      · simp [connRead, bufferRead]

/-- Witness for the amended C2 at the empty connection state. -/
theorem read_returns_progress_or_eof_witness :
    0 < 1 ∧
      (((connRead ⟨[], [], []⟩ 1).1 ≠ [] ∧ (connRead ⟨[], [], []⟩ 1).2.2 = none) ∨
        ((connRead ⟨[], [], []⟩ 1).1 = [] ∧
          (connRead ⟨[], [], []⟩ 1).2.2 = some GoErr.eof)) :=
  ⟨by decide, read_returns_progress_or_eof ⟨[], [], []⟩ 1 (by decide)⟩

/-- Claim C3 counterexample: the claim that a Read finding no payload after a
transport error returns that recorded error fails concretely: after the
transport errors with a connection reset and delivers nothing, Read returns
io.EOF, not the reset error — nothing was recorded. -/
theorem cached_error_claim_counterexample : ¬ c3ClaimProp := by
  intro h
  have h1 := h ⟨[], [], []⟩ [] GoErr.connReset 1 (by decide) (by decide)
  exact absurd h1 (by decide)

/-- Claim C3 amended: no transport error is ever recorded — the io.Copy
goroutine discards its error and the conn struct has no field for it — so a
Read that finds no buffered payload returns io.EOF whatever the transport
error was, and the connection state does not depend on that error at all. -/
theorem transport_error_discarded (s : ConnState) (d : List Nat) (e : GoErr) (n : Nat)
    (hn : 0 < n) (h : (transportPump s d e).bOut = []) :
    (connRead (transportPump s d e) n).2.2 = some GoErr.eof ∧
      transportPump s d e = transportPump s d GoErr.eof := by
  refine ⟨?_, rfl⟩
  have hb : s.bOut = [] := h
  simp [connRead, bufferRead, transportPump, hb, Nat.pos_iff_ne_zero.mp hn]

/-- Witness for the amended C3 after a connection reset delivering [7]. -/
theorem transport_error_discarded_witness :
    (0 < 1 ∧ (transportPump ⟨[], [], []⟩ [7] GoErr.connReset).bOut = []) ∧
      ((connRead (transportPump ⟨[], [], []⟩ [7] GoErr.connReset) 1).2.2 =
          some GoErr.eof ∧
        transportPump ⟨[], [], []⟩ [7] GoErr.connReset =
          transportPump ⟨[], [], []⟩ [7] GoErr.eof) :=
  ⟨⟨by decide, by decide⟩,
    transport_error_discarded ⟨[], [], []⟩ [7] GoErr.connReset 1 (by decide) (by decide)⟩

/-- Claim C9: the connection object dial returns has a nil outbound buffer —
the buffers are allocated by the pump, not at creation — so Read before the
pump's first statements run dereferences nil (panics), while after the
pump's buffer allocation the same Read returns a value. -/
theorem read_unsafe_before_pump_init (netErr : Option GoErr) (c : RawConn) (n : Nat)
    (h : (dialModel netErr).ret = some c) :
    c.bOut = none ∧ rawRead c n = none ∧ (rawRead (processInit c) n).isSome = true := by
  have hc : c = { bIn := none, bOut := none } := (Option.some.inj h).symm
  subst hc
  refine ⟨rfl, rfl, ?_⟩
  simp [rawRead, processInit]

/-- Witness for C9 at a successful dial and a 1-byte read. -/
theorem read_unsafe_before_pump_init_witness :
    (dialModel none).ret = some { bIn := none, bOut := none } ∧
      (({ bIn := none, bOut := none } : RawConn).bOut = none ∧
        rawRead { bIn := none, bOut := none } 1 = none ∧
        (rawRead (processInit { bIn := none, bOut := none }) 1).isSome = true) :=
  ⟨rfl, read_unsafe_before_pump_init none { bIn := none, bOut := none } 1 rfl⟩

/-- Claim C10: when the underlying connect fails with error e, dial still
starts the pump goroutine, still returns a non-nil connection object, and
returns e alongside it. -/
theorem dial_starts_pump_despite_error (e : GoErr) :
    (dialModel (some e)).pumpStarted = true ∧
      (dialModel (some e)).ret = some { bIn := none, bOut := none } ∧
      (dialModel (some e)).err = some e :=
  ⟨rfl, rfl, rfl⟩

end GoTelnet
